import Mathlib

/-!
Shallow embedding of the formatter/locator module (file
src/wcsaxes/formatter_locator.py) and proofs about it.

Modelling conventions:
  * Python floats are idealised as exact rationals.
  * An astropy angle Quantity is a pair of a rational value and an angle
    unit; arithmetic converts through degrees exactly.
  * The regular expressions at the top of the source file are embedded as
    boolean matchers on lists of characters.  The dot in those regexes is
    unescaped, so it matches any character except a newline, and the
    trailing anchor also matches just before a final newline; both regex
    behaviours are reproduced faithfully.
  * The mutable configuration object is a record; Python property setters
    become functions from the record to a new record; setters that can
    raise return the mutated record together with an optional error, and
    warning emissions are collected in a list.
-/

/-- The closed set of angle units this module manipulates. -/
inductive AngleUnit where
  | degree
  | hourangle
  | arcmin
  | arcsec
deriving DecidableEq, Repr

/-- Exact conversion factor of a unit to degrees. -/
def AngleUnit.inDeg : AngleUnit → ℚ
  | .degree => 1
  | .hourangle => 15
  | .arcmin => 1/60
  | .arcsec => 1/3600

/-- An angle quantity: a rational value carrying an angle unit. -/
structure AngleQ where
  val : ℚ
  unit : AngleUnit
deriving DecidableEq, Repr

/-- The value of an angle quantity expressed in degrees. -/
def AngleQ.toDeg (q : AngleQ) : ℚ := q.val * q.unit.inDeg

/-- Floating-point modulo as numpy computes it (sign of the divisor),
idealised over the rationals. -/
def qmod (a b : ℚ) : ℚ := a - b * ⌊a / b⌋

/-- Round to the nearest integer, ties to even, as numpy.round does. -/
def roundHalfEven (q : ℚ) : ℤ :=
  let f : ℤ := ⌊q⌋
  let r : ℚ := q - f
  if r < 1/2 then f
  else if 1/2 < r then f + 1
  else if f % 2 = 0 then f else f + 1

/-- The fixed absolute tolerance 1e-10 used by the spacing checks. -/
def tol10 : ℚ := 1 / 10 ^ 10

/-- Semantics of an unescaped dot in a Python regex without DOTALL: any
character except a newline. -/
def anyChar (c : Char) : Bool := c != '\n'

/-- Semantics of a plus-repetition of a single literal character. -/
def repPlus (c : Char) (l : List Char) : Bool := !l.isEmpty && l.all (· = c)

/-- Core of the regex dd(:mm(:ss(.(s)+)?)?)? (the dot is unescaped). -/
def dmsCore (l : List Char) : Bool :=
  match l with
  | ['d', 'd'] => true
  | ['d', 'd', ':', 'm', 'm'] => true
  | ['d', 'd', ':', 'm', 'm', ':', 's', 's'] => true
  | 'd' :: 'd' :: ':' :: 'm' :: 'm' :: ':' :: 's' :: 's' :: c :: rest =>
      anyChar c && repPlus 's' rest
  | _ => false

/-- Core of the regex hh(:mm(:ss(.(s)+)?)?)? (the dot is unescaped). -/
def hmsCore (l : List Char) : Bool :=
  match l with
  | ['h', 'h'] => true
  | ['h', 'h', ':', 'm', 'm'] => true
  | ['h', 'h', ':', 'm', 'm', ':', 's', 's'] => true
  | 'h' :: 'h' :: ':' :: 'm' :: 'm' :: ':' :: 's' :: 's' :: c :: rest =>
      anyChar c && repPlus 's' rest
  | _ => false

/-- Core of the regex d(.(d)+)? (the dot is unescaped). -/
def ddecCore (l : List Char) : Bool :=
  match l with
  | ['d'] => true
  | 'd' :: c :: rest => anyChar c && repPlus 'd' rest
  | _ => false

/-- Core of the regex m(.(m)+)? (the dot is unescaped). -/
def dminCore (l : List Char) : Bool :=
  match l with
  | ['m'] => true
  | 'm' :: c :: rest => anyChar c && repPlus 'm' rest
  | _ => false

/-- Core of the regex s(.(s)+)? (the dot is unescaped). -/
def dsecCore (l : List Char) : Bool :=
  match l with
  | ['s'] => true
  | 's' :: c :: rest => anyChar c && repPlus 's' rest
  | _ => false

/-- Core of the regex x(.(x)+)? (the dot is unescaped). -/
def scalCore (l : List Char) : Bool :=
  match l with
  | ['x'] => true
  | 'x' :: c :: rest => anyChar c && repPlus 'x' rest
  | _ => false

/-- Anchored matching of re.match with a trailing dollar: the whole string
matches, or everything before a single final newline does. -/
def reMatch (core : List Char → Bool) (l : List Char) : Bool :=
  core l || ((l.getLast? == some '\n') && core l.dropLast)

/-- Index of the first occurrence of a character, as str.index computes. -/
def strIndex (c : Char) : List Char → Option ℕ
  | [] => none
  | a :: l => if a = c then some 0 else (strIndex c l).map (· + 1)

/-- Embedding of the precision computation in the format setters:
len(value) - value.index the dot - 1 when a dot occurs, else 0. -/
def precisionOf (l : List Char) : ℕ :=
  match strIndex '.' l with
  | some i => l.length - i - 1
  | none => 0

/-- Embedding of the field-count computation in the sexagesimal branches:
3 when a dot occurs, else one more than the number of colons. -/
def sexaFields (l : List Char) : ℕ :=
  match strIndex '.' l with
  | some _ => 3
  | none => l.count ':' + 1

/-- Warning-level diagnostics emitted by warnings.warn in the source. -/
inductive Warn where
  | spacingTooSmall
  | spacingNotMultiple
deriving DecidableEq, Repr

/-- The errors this module can raise (both are ValueError in the source,
distinguished by their message). -/
inductive Err where
  | configError
  | invalidFormat
deriving DecidableEq, Repr

/-- Result of a mutating setter: the state after the call (mutations
persist even when an exception propagates), the warnings emitted, and the
error raised, if any. -/
structure SetResult (σ : Type) where
  state : σ
  warns : List Warn
  err : Option Err
deriving DecidableEq, Repr

/-- The mutable state of an AngleFormatterLocator: the three mutually
exclusive configuration fields, the format string, and the descriptor
fields derived from the last successful parse.  The descriptor fields
start at the defaults established by the constructor. -/
structure AngleState where
  _values : Option (List ℚ)
  _number : Option ℕ
  _spacing : Option AngleQ
  _format : Option String
  _decimal : Bool
  _unit : AngleUnit
  _fields : ℕ
  _precision : ℕ
deriving DecidableEq, Repr

/-- The values property setter of BaseFormatterLocator. -/
def angle_values_set (st : AngleState) (v : Option (List ℚ)) : AngleState :=
  { st with _number := none, _spacing := none, _values := v }

/-- The number property setter of BaseFormatterLocator. -/
def angle_number_set (st : AngleState) (n : Option ℕ) : AngleState :=
  { st with _number := n, _spacing := none, _values := none }

/-- The spacing property setter of AngleFormatterLocator (the type check
for a unit-bearing quantity is discharged by the AngleQ type). -/
def angle_spacing_set (st : AngleState) (s : Option AngleQ) : AngleState :=
  { st with _number := none, _spacing := s, _values := none }

/-- The base_spacing property of AngleFormatterLocator. -/
def angle_base_spacing (st : AngleState) : AngleQ :=
  let sp : AngleQ :=
    if st._decimal then
      ⟨1 / 10 ^ st._precision, st._unit⟩
    else if st._fields = 1 then
      ⟨1, .degree⟩
    else if st._fields = 2 then
      ⟨1, .arcmin⟩
    else if st._precision = 0 then
      ⟨1, .arcsec⟩
    else
      ⟨1 / 10 ^ st._precision, .arcsec⟩
  if st._unit = .hourangle then ⟨sp.val * 15, sp.unit⟩ else sp

/-- The first if-statement of the spacing re-validation at the end of the
format setter: a spacing below the base spacing is raised to it. -/
def angle_check_low (st : AngleState) : AngleState × List Warn :=
  match st._spacing with
  | some sp =>
      if sp.toDeg < (angle_base_spacing st).toDeg then
        (angle_spacing_set st (some (angle_base_spacing st)), [.spacingTooSmall])
      else (st, [])
  | none => (st, [])

/-- The second if-statement of the re-validation: a spacing that is not a
multiple of the base spacing within tolerance is replaced by the base
spacing times round of spacing divided by spacing, as the source does. -/
def angle_check_mult (st : AngleState) : AngleState × List Warn :=
  match st._spacing with
  | some sp =>
      if tol10 < qmod sp.toDeg (angle_base_spacing st).toDeg then
        (angle_spacing_set st (some ⟨(angle_base_spacing st).val *
            (roundHalfEven (sp.toDeg / sp.toDeg) : ℤ), (angle_base_spacing st).unit⟩),
         [.spacingNotMultiple])
      else (st, [])
  | none => (st, [])

/-- Both re-validation steps in sequence, collecting the warnings. -/
def angle_check_spacing (st : AngleState) : AngleState × List Warn :=
  let p1 := angle_check_low st
  let p2 := angle_check_mult p1.1
  (p2.1, p1.2 ++ p2.2)

/-- The format property setter of AngleFormatterLocator: store the string,
return at once when it is None, otherwise try the five regexes in order,
filling the descriptor fields, and raise on no match; on success re-check
the stored spacing. -/
def angle_format_set (st : AngleState) (v : Option String) : SetResult AngleState :=
  match v with
  | none => ⟨{ st with _format := none }, [], none⟩
  | some str =>
    let st1 := { st with _format := some str }
    let l := str.data
    if reMatch dmsCore l then
      let st2 := { st1 with _decimal := false, _unit := AngleUnit.degree, _precision := precisionOf l, _fields := sexaFields l }
      let r := angle_check_spacing st2
      ⟨r.1, r.2, none⟩
    else if reMatch hmsCore l then
      let st2 := { st1 with _decimal := false, _unit := AngleUnit.hourangle, _precision := precisionOf l, _fields := sexaFields l }
      let r := angle_check_spacing st2
      ⟨r.1, r.2, none⟩
    else if reMatch ddecCore l then
      let st2 := { st1 with _decimal := true, _unit := AngleUnit.degree, _fields := 1, _precision := precisionOf l }
      let r := angle_check_spacing st2
      ⟨r.1, r.2, none⟩
    else if reMatch dminCore l then
      let st2 := { st1 with _decimal := true, _unit := AngleUnit.arcmin, _fields := 1, _precision := precisionOf l }
      let r := angle_check_spacing st2
      ⟨r.1, r.2, none⟩
    else if reMatch dsecCore l then
      let st2 := { st1 with _decimal := true, _unit := AngleUnit.arcsec, _fields := 1, _precision := precisionOf l }
      let r := angle_check_spacing st2
      ⟨r.1, r.2, none⟩
    else ⟨st1, [], some .invalidFormat⟩

/-- Number of supplied (non-None) arguments among values, number and
spacing, so that the constructor guard count None below 2 reads as two or
more supplied. -/
def numSupplied (a b c : Bool) : ℕ :=
  (if a then 1 else 0) + (if b then 1 else 0) + (if c then 1 else 0)

/-- The constructor of AngleFormatterLocator: reject two or more supplied
configuration arguments, install the one supplied (number 5 when none
is), then run the format setter. -/
def angle_init (values : Option (List ℚ)) (number : Option ℕ)
    (spacing : Option AngleQ) (format : Option String) :
    Except Err (AngleState × List Warn) :=
  if 2 ≤ numSupplied values.isSome number.isSome spacing.isSome then
    .error .configError
  else
    let st0 : AngleState := ⟨none, none, none, none, false, .degree, 1, 0⟩
    let st1 :=
      match values, number, spacing with
      | some v, _, _ => angle_values_set st0 (some v)
      | none, some n, _ => angle_number_set st0 (some n)
      | none, none, some s => angle_spacing_set st0 (some s)
      | none, none, none => angle_number_set st0 (some 5)
    let r := angle_format_set st1 format
    match r.err with
    | some e => .error e
    | none => .ok (r.state, r.warns)

/-- The tick positions np.arange(imin, imax + 1, dtype=int) * spacing with
imin the ceiling of value_min over the spacing and imax the floor of
value_max over the spacing. -/
def tickValues (value_min value_max spacing : ℚ) : List ℚ :=
  let imin : ℤ := ⌈value_min / spacing⌉
  let imax : ℤ := ⌊value_max / spacing⌋
  (List.range (imax + 1 - imin).toNat).map (fun k : ℕ => ((imin + (k : ℤ) : ℤ) : ℚ) * spacing)

/-- The spacing_deg computation inside the locator method of
AngleFormatterLocator: an explicit spacing is converted to degrees; in
desired-count mode the ideal spacing is clipped to the base spacing when
a format is set and the ideal spacing is finer, and otherwise handed to
the degree selector when the active unit is degree and to the hour
selector for every other unit.  The two external nice spacing selectors
are passed in as pure functions on degree values; the result is None
exactly where the Python code would raise (number zero, or no
configuration mode set at all). -/
def angle_resolved_spacing (degSel hourSel : ℚ → ℚ) (st : AngleState)
    (value_min value_max : ℚ) : Option ℚ :=
  match st._spacing with
  | some sp => some sp.toDeg
  | none =>
    match st._number with
    | some n =>
      if n = 0 then none
      else
        let dv : ℚ := |value_max - value_min| / (n : ℚ)
        if st._format.isSome ∧ dv < (angle_base_spacing st).toDeg then
          some (angle_base_spacing st).toDeg
        else if st._unit = .degree then some (degSel dv)
        else some (hourSel dv)
    | none => none

/-- The locator method of AngleFormatterLocator. -/
def angle_locator (degSel hourSel : ℚ → ℚ) (st : AngleState)
    (value_min value_max : ℚ) : Option (List ℚ × AngleQ) :=
  match st._values with
  | some vs => some (vs, ⟨11/10, .arcsec⟩)
  | none =>
    match angle_resolved_spacing degSel hourSel st value_min value_max with
    | some s => some (tickValues value_min value_max s, ⟨s, .degree⟩)
    | none => none

/-- The mutable state of a ScalarFormatterLocator. -/
structure ScalarState where
  _values : Option (List ℚ)
  _number : Option ℕ
  _spacing : Option ℚ
  _format : Option String
  _precision : ℕ
deriving DecidableEq, Repr

/-- The values property setter of BaseFormatterLocator, scalar variant. -/
def scalar_values_set (st : ScalarState) (v : Option (List ℚ)) : ScalarState :=
  { st with _number := none, _spacing := none, _values := v }

/-- The number property setter of BaseFormatterLocator, scalar variant. -/
def scalar_number_set (st : ScalarState) (n : Option ℕ) : ScalarState :=
  { st with _number := n, _spacing := none, _values := none }

/-- The spacing property setter of BaseFormatterLocator, scalar variant. -/
def scalar_spacing_set (st : ScalarState) (s : Option ℚ) : ScalarState :=
  { st with _number := none, _spacing := s, _values := none }

/-- The base_spacing property of ScalarFormatterLocator. -/
def scalar_base_spacing (st : ScalarState) : ℚ := 1 / 10 ^ st._precision

/-- The first if-statement of the scalar spacing re-validation. -/
def scalar_check_low (st : ScalarState) : ScalarState × List Warn :=
  match st._spacing with
  | some sp =>
      if sp < scalar_base_spacing st then
        (scalar_spacing_set st (some (scalar_base_spacing st)), [.spacingTooSmall])
      else (st, [])
  | none => (st, [])

/-- The second if-statement of the scalar spacing re-validation. -/
def scalar_check_mult (st : ScalarState) : ScalarState × List Warn :=
  match st._spacing with
  | some sp =>
      if tol10 < qmod sp (scalar_base_spacing st) then
        (scalar_spacing_set st
          (some (scalar_base_spacing st * (roundHalfEven (sp / sp) : ℤ))),
         [.spacingNotMultiple])
      else (st, [])
  | none => (st, [])

/-- Both scalar re-validation steps in sequence, collecting warnings. -/
def scalar_check_spacing (st : ScalarState) : ScalarState × List Warn :=
  let p1 := scalar_check_low st
  let p2 := scalar_check_mult p1.1
  (p2.1, p1.2 ++ p2.2)

/-- The format property setter of ScalarFormatterLocator. -/
def scalar_format_set (st : ScalarState) (v : Option String) : SetResult ScalarState :=
  match v with
  | none => ⟨{ st with _format := none }, [], none⟩
  | some str =>
    let st1 := { st with _format := some str }
    let l := str.data
    if reMatch scalCore l then
      let r := scalar_check_spacing { st1 with _precision := precisionOf l }
      ⟨r.1, r.2, none⟩
    else ⟨st1, [], some .invalidFormat⟩

/-- The constructor of ScalarFormatterLocator. -/
def scalar_init (values : Option (List ℚ)) (number : Option ℕ)
    (spacing : Option ℚ) (format : Option String) :
    Except Err (ScalarState × List Warn) :=
  if 2 ≤ numSupplied values.isSome number.isSome spacing.isSome then
    .error .configError
  else
    let st0 : ScalarState := ⟨none, none, none, none, 0⟩
    let st1 :=
      match values, number, spacing with
      | some v, _, _ => scalar_values_set st0 (some v)
      | none, some n, _ => scalar_number_set st0 (some n)
      | none, none, some s => scalar_spacing_set st0 (some s)
      | none, none, none => scalar_number_set st0 (some 5)
    let r := scalar_format_set st1 format
    match r.err with
    | some e => .error e
    | none => .ok (r.state, r.warns)

/-- The spacing computation inside the locator method of
ScalarFormatterLocator, with the external nice spacing selector passed in
as a pure function. -/
def scalar_resolved_spacing (scalSel : ℚ → ℚ) (st : ScalarState)
    (value_min value_max : ℚ) : Option ℚ :=
  match st._spacing with
  | some sp => some sp
  | none =>
    match st._number with
    | some n =>
      if n = 0 then none
      else
        let dv : ℚ := |value_max - value_min| / (n : ℚ)
        if st._format.isSome ∧ dv < scalar_base_spacing st then
          some (scalar_base_spacing st)
        else some (scalSel dv)
    | none => none

/-- The locator method of ScalarFormatterLocator. -/
def scalar_locator (scalSel : ℚ → ℚ) (st : ScalarState)
    (value_min value_max : ℚ) : Option (List ℚ × ℚ) :=
  match st._values with
  | some vs => some (vs, 11/10)
  | none =>
    match scalar_resolved_spacing scalSel st value_min value_max with
    | some s => some (tickValues value_min value_max s, s)
    | none => none

/-- Grammar dd, dd:mm, dd:mm:ss, dd:mm:ss.s+ exactly as the spec words it,
with a literal decimal point; written for comparison with the code
matcher. -/
def specDMS (l : List Char) : Bool :=
  match l with
  | ['d', 'd'] => true
  | ['d', 'd', ':', 'm', 'm'] => true
  | ['d', 'd', ':', 'm', 'm', ':', 's', 's'] => true
  | 'd' :: 'd' :: ':' :: 'm' :: 'm' :: ':' :: 's' :: 's' :: '.' :: rest => repPlus 's' rest
  | _ => false

/-- Grammar hh, hh:mm, hh:mm:ss, hh:mm:ss.s+ exactly as the spec words it. -/
def specHMS (l : List Char) : Bool :=
  match l with
  | ['h', 'h'] => true
  | ['h', 'h', ':', 'm', 'm'] => true
  | ['h', 'h', ':', 'm', 'm', ':', 's', 's'] => true
  | 'h' :: 'h' :: ':' :: 'm' :: 'm' :: ':' :: 's' :: 's' :: '.' :: rest => repPlus 's' rest
  | _ => false

/-- Grammar d, d.d+ exactly as the spec words it. -/
def specDDEC (l : List Char) : Bool :=
  match l with
  | ['d'] => true
  | 'd' :: '.' :: rest => repPlus 'd' rest
  | _ => false

/-- Grammar m, m.m+ exactly as the spec words it. -/
def specDMIN (l : List Char) : Bool :=
  match l with
  | ['m'] => true
  | 'm' :: '.' :: rest => repPlus 'm' rest
  | _ => false

/-- Grammar s, s.s+ exactly as the spec words it. -/
def specDSEC (l : List Char) : Bool :=
  match l with
  | ['s'] => true
  | 's' :: '.' :: rest => repPlus 's' rest
  | _ => false

/-- Grammar x, x.x+ exactly as the spec words it. -/
def specSCAL (l : List Char) : Bool :=
  match l with
  | ['x'] => true
  | 'x' :: '.' :: rest => repPlus 'x' rest
  | _ => false

/-- Union of the five recognized angle grammars as the spec words them. -/
def specAngleGrammar (l : List Char) : Bool :=
  specDMS l || specHMS l || specDDEC l || specDMIN l || specDSEC l

/-- Rounding a spacing to the nearest multiple of the base spacing, as the
spec words the not-a-multiple correction. -/
def nearestMultiple (spacing base : ℚ) : ℚ :=
  base * (roundHalfEven (spacing / base) : ℤ)

/-- C1: the claim says a spacing that is not an exact multiple of the base
spacing is rounded to the nearest multiple.  The code instead divides the
spacing by itself, so round always receives 1 and the spacing is reset to
the base spacing.  At spacing 2.7 (degrees for the angle variant, raw for
the scalar variant) and a one-field format, the nearest multiple of the
base spacing 1 is 3, yet both format setters store 1; the warning is
emitted and no error is raised, as the claim says. -/
theorem claim_C1_reset_not_nearest_multiple :
    angle_format_set ⟨none, none, some ⟨27/10, .degree⟩, none, false, .degree, 1, 0⟩ (some "dd")
      = ⟨⟨none, none, some ⟨1, .degree⟩, some "dd", false, .degree, 1, 0⟩, [.spacingNotMultiple], none⟩
    ∧ nearestMultiple (27/10) 1 = 3
    ∧ (1 : ℚ) ≠ 3
    ∧ scalar_format_set ⟨none, none, some (27/10), none, 0⟩ (some "x")
      = ⟨⟨none, none, some 1, some "x", 0⟩, [.spacingNotMultiple], none⟩ := by
  have step1 : angle_format_set ⟨none, none, some ⟨27/10, .degree⟩, none, false, .degree, 1, 0⟩ (some "dd")
      = ⟨(angle_check_spacing ⟨none, none, some ⟨27/10, .degree⟩, some "dd", false, .degree, 1, 0⟩).1,
         (angle_check_spacing ⟨none, none, some ⟨27/10, .degree⟩, some "dd", false, .degree, 1, 0⟩).2, none⟩ := rfl
  have hb : angle_base_spacing ⟨none, none, some ⟨27/10, .degree⟩, some "dd", false, .degree, 1, 0⟩
      = ⟨1, AngleUnit.degree⟩ := rfl
  have step2 : scalar_format_set ⟨none, none, some (27/10), none, 0⟩ (some "x")
      = ⟨(scalar_check_spacing ⟨none, none, some (27/10), some "x", 0⟩).1,
         (scalar_check_spacing ⟨none, none, some (27/10), some "x", 0⟩).2, none⟩ := rfl
  rw [step1, step2]
  norm_num [angle_check_spacing, angle_check_low, angle_check_mult, scalar_check_spacing,
    scalar_check_low, scalar_check_mult, hb, AngleQ.toDeg, AngleUnit.inDeg,
    qmod, tol10, angle_spacing_set, scalar_spacing_set, scalar_base_spacing, roundHalfEven,
    nearestMultiple]

/-- C6: the claim says assigning a string that matches none of the
recognized grammars raises the invalid-format error.  The regexes leave
the decimal dot unescaped, so it matches any character: the string dxd is
outside every documented grammar yet both variants accept a dot-free
string of that shape (the angle setter accepts dxd, the scalar setter
accepts xqx) without raising. -/
theorem claim_C6_unescaped_dot_accepts :
    (angle_format_set ⟨none, some 5, none, none, false, .degree, 1, 0⟩ (some "dxd")).err = none
    ∧ specAngleGrammar "dxd".data = false
    ∧ (scalar_format_set ⟨none, some 5, none, none, 0⟩ (some "xqx")).err = none
    ∧ specSCAL "xqx".data = false := by
  refine ⟨rfl, by decide, rfl, by decide⟩

/-- Number of active (non-None) configuration modes of an angle state. -/
def angle_active_modes (st : AngleState) : ℕ :=
  numSupplied st._values.isSome st._number.isSome st._spacing.isSome

/-- Number of active (non-None) configuration modes of a scalar state. -/
def scalar_active_modes (st : ScalarState) : ℕ :=
  numSupplied st._values.isSome st._number.isSome st._spacing.isSome

/-- C4: every setter of the three configuration properties stores its
argument and clears the other two, in both variants, so after any setter
call at most one of the three modes is non-None. -/
theorem claim_C4_mutual_exclusion :
    (∀ (st : AngleState) (v : Option (List ℚ)),
        (angle_values_set st v)._values = v ∧ (angle_values_set st v)._number = none
        ∧ (angle_values_set st v)._spacing = none ∧ angle_active_modes (angle_values_set st v) ≤ 1)
    ∧ (∀ (st : AngleState) (n : Option ℕ),
        (angle_number_set st n)._number = n ∧ (angle_number_set st n)._values = none
        ∧ (angle_number_set st n)._spacing = none ∧ angle_active_modes (angle_number_set st n) ≤ 1)
    ∧ (∀ (st : AngleState) (s : Option AngleQ),
        (angle_spacing_set st s)._spacing = s ∧ (angle_spacing_set st s)._values = none
        ∧ (angle_spacing_set st s)._number = none ∧ angle_active_modes (angle_spacing_set st s) ≤ 1)
    ∧ (∀ (st : ScalarState) (v : Option (List ℚ)),
        (scalar_values_set st v)._values = v ∧ (scalar_values_set st v)._number = none
        ∧ (scalar_values_set st v)._spacing = none ∧ scalar_active_modes (scalar_values_set st v) ≤ 1)
    ∧ (∀ (st : ScalarState) (n : Option ℕ),
        (scalar_number_set st n)._number = n ∧ (scalar_number_set st n)._values = none
        ∧ (scalar_number_set st n)._spacing = none ∧ scalar_active_modes (scalar_number_set st n) ≤ 1)
    ∧ (∀ (st : ScalarState) (s : Option ℚ),
        (scalar_spacing_set st s)._spacing = s ∧ (scalar_spacing_set st s)._values = none
        ∧ (scalar_spacing_set st s)._number = none ∧ scalar_active_modes (scalar_spacing_set st s) ≤ 1) := by
  refine ⟨fun st v => ⟨rfl, rfl, rfl, ?_⟩, fun st n => ⟨rfl, rfl, rfl, ?_⟩,
      fun st s => ⟨rfl, rfl, rfl, ?_⟩, fun st v => ⟨rfl, rfl, rfl, ?_⟩,
      fun st n => ⟨rfl, rfl, rfl, ?_⟩, fun st s => ⟨rfl, rfl, rfl, ?_⟩⟩ <;>
    first
      | (cases v <;> simp [angle_active_modes, scalar_active_modes, numSupplied,
          angle_values_set, scalar_values_set])
      | (cases n <;> simp [angle_active_modes, scalar_active_modes, numSupplied,
          angle_number_set, scalar_number_set])
      | (cases s <;> simp [angle_active_modes, scalar_active_modes, numSupplied,
          angle_spacing_set, scalar_spacing_set])

/-- C7: in explicit-values mode the locator of each variant returns the
configured values verbatim, in their configured order and without range
clipping, paired with the fixed sentinel spacing: 1.1 arcseconds for the
angle variant and 1.1 for the scalar variant. -/
theorem claim_C7_explicit_values_verbatim :
    (∀ (degSel hourSel : ℚ → ℚ) (st : AngleState) (vmin vmax : ℚ) (vs : List ℚ),
        st._values = some vs →
        angle_locator degSel hourSel st vmin vmax = some (vs, ⟨11/10, .arcsec⟩))
    ∧ (∀ (scalSel : ℚ → ℚ) (st : ScalarState) (vmin vmax : ℚ) (vs : List ℚ),
        st._values = some vs →
        scalar_locator scalSel st vmin vmax = some (vs, 11/10)) := by
  constructor
  · intro degSel hourSel st vmin vmax vs h
    unfold angle_locator
    rw [h]
  · intro scalSel st vmin vmax vs h
    unfold scalar_locator
    rw [h]

/-- Witness for C7: values 3, 1, 99 configured on the range 0 to 1 come
back verbatim, unsorted and unclipped, with the sentinel spacing. -/
theorem claim_C7_explicit_values_verbatim_witness :
    angle_locator (fun q => q) (fun q => q) ⟨some [3, 1, 99], none, none, none, false, .degree, 1, 0⟩ 0 1
      = some ([3, 1, 99], ⟨11/10, .arcsec⟩)
    ∧ scalar_locator (fun q => q) ⟨some [3, 1, 99], none, none, none, 0⟩ 0 1
      = some ([3, 1, 99], 11/10) :=
  ⟨claim_C7_explicit_values_verbatim.1 _ _ _ 0 1 [3, 1, 99] rfl,
   claim_C7_explicit_values_verbatim.2 _ _ 0 1 [3, 1, 99] rfl⟩

/-- C10: when no grammar matches, each format setter has already stored
the rejected string in the format attribute before raising: the state
after the exception carries the rejected string as format while every
other field, in particular the derived descriptor fields, is unchanged,
and no warning is emitted. -/
theorem claim_C10_format_stored_before_raise :
    (∀ (st : AngleState) (v : String),
        reMatch dmsCore v.data = false → reMatch hmsCore v.data = false →
        reMatch ddecCore v.data = false → reMatch dminCore v.data = false →
        reMatch dsecCore v.data = false →
        angle_format_set st (some v) = ⟨{ st with _format := some v }, [], some .invalidFormat⟩)
    ∧ (∀ (st : ScalarState) (v : String),
        reMatch scalCore v.data = false →
        scalar_format_set st (some v) = ⟨{ st with _format := some v }, [], some .invalidFormat⟩) := by
  constructor
  · intro st v h1 h2 h3 h4 h5
    simp [angle_format_set, h1, h2, h3, h4, h5]
  · intro st v h1
    simp [scalar_format_set, h1]

/-- Witness for C10: rejecting the string q leaves the descriptor fields
of a previously parsed three-field state in place while the format
attribute holds the rejected string. -/
theorem claim_C10_format_stored_before_raise_witness :
    angle_format_set ⟨none, some 5, none, some "dd:mm:ss", false, .degree, 3, 0⟩ (some "q")
      = ⟨⟨none, some 5, none, some "q", false, .degree, 3, 0⟩, [], some .invalidFormat⟩
    ∧ scalar_format_set ⟨none, some 5, none, some "x.xx", 2⟩ (some "q")
      = ⟨⟨none, some 5, none, some "q", 2⟩, [], some .invalidFormat⟩ :=
  ⟨claim_C10_format_stored_before_raise.1 ⟨none, some 5, none, some "dd:mm:ss", false, .degree, 3, 0⟩
      "q" (by decide) (by decide) (by decide) (by decide) (by decide),
   claim_C10_format_stored_before_raise.2 ⟨none, some 5, none, some "x.xx", 2⟩ "q" (by decide)⟩

/-- The angle format setter never raises the construction error: its only
error is the invalid-format one. -/
theorem angle_format_set_err (st : AngleState) (v : Option String) :
    (angle_format_set st v).err = none ∨ (angle_format_set st v).err = some .invalidFormat := by
  unfold angle_format_set
  match v with
  | none => exact Or.inl rfl
  | some str =>
    dsimp only
    split
    · exact Or.inl rfl
    · split
      · exact Or.inl rfl
      · split
        · exact Or.inl rfl
        · split
          · exact Or.inl rfl
          · split
            · exact Or.inl rfl
            · exact Or.inr rfl

/-- The scalar format setter never raises the construction error. -/
theorem scalar_format_set_err (st : ScalarState) (v : Option String) :
    (scalar_format_set st v).err = none ∨ (scalar_format_set st v).err = some .invalidFormat := by
  unfold scalar_format_set
  match v with
  | none => exact Or.inl rfl
  | some str =>
    dsimp only
    split
    · exact Or.inl rfl
    · exact Or.inr rfl

/-- C5: each constructor raises the configuration error exactly when two
or more of values, number and spacing are supplied, and an omitted
configuration (all three None, no format) constructs the object in
desired-count mode with number 5. -/
theorem claim_C5_constructor :
    (∀ (values : Option (List ℚ)) (number : Option ℕ) (spacing : Option AngleQ)
        (format : Option String),
        angle_init values number spacing format = .error .configError
          ↔ 2 ≤ numSupplied values.isSome number.isSome spacing.isSome)
    ∧ angle_init none none none none
        = .ok (⟨none, some 5, none, none, false, .degree, 1, 0⟩, [])
    ∧ (∀ (values : Option (List ℚ)) (number : Option ℕ) (spacing : Option ℚ)
        (format : Option String),
        scalar_init values number spacing format = .error .configError
          ↔ 2 ≤ numSupplied values.isSome number.isSome spacing.isSome)
    ∧ scalar_init none none none none = .ok (⟨none, some 5, none, none, 0⟩, []) := by
  refine ⟨?_, rfl, ?_, rfl⟩
  · intro values number spacing format
    cases values <;> cases number <;> cases spacing
    case none.none.none =>
      rw [angle_init, if_neg (by simp [numSupplied])]
      dsimp only
      rcases angle_format_set_err
        (angle_number_set ⟨none, none, none, none, false, .degree, 1, 0⟩ (some 5)) format
        with he | he <;> rw [he] <;> simp [numSupplied]
    case none.none.some s =>
      rw [angle_init, if_neg (by simp [numSupplied])]
      dsimp only
      rcases angle_format_set_err
        (angle_spacing_set ⟨none, none, none, none, false, .degree, 1, 0⟩ (some s)) format
        with he | he <;> rw [he] <;> simp [numSupplied]
    case none.some.none n =>
      rw [angle_init, if_neg (by simp [numSupplied])]
      dsimp only
      rcases angle_format_set_err
        (angle_number_set ⟨none, none, none, none, false, .degree, 1, 0⟩ (some n)) format
        with he | he <;> rw [he] <;> simp [numSupplied]
    case some.none.none v =>
      rw [angle_init, if_neg (by simp [numSupplied])]
      dsimp only
      rcases angle_format_set_err
        (angle_values_set ⟨none, none, none, none, false, .degree, 1, 0⟩ (some v)) format
        with he | he <;> rw [he] <;> simp [numSupplied]
    all_goals simp [angle_init, numSupplied]
  · intro values number spacing format
    cases values <;> cases number <;> cases spacing
    case none.none.none =>
      rw [scalar_init, if_neg (by simp [numSupplied])]
      dsimp only
      rcases scalar_format_set_err (scalar_number_set ⟨none, none, none, none, 0⟩ (some 5)) format
        with he | he <;> rw [he] <;> simp [numSupplied]
    case none.none.some s =>
      rw [scalar_init, if_neg (by simp [numSupplied])]
      dsimp only
      rcases scalar_format_set_err (scalar_spacing_set ⟨none, none, none, none, 0⟩ (some s)) format
        with he | he <;> rw [he] <;> simp [numSupplied]
    case none.some.none n =>
      rw [scalar_init, if_neg (by simp [numSupplied])]
      dsimp only
      rcases scalar_format_set_err (scalar_number_set ⟨none, none, none, none, 0⟩ (some n)) format
        with he | he <;> rw [he] <;> simp [numSupplied]
    case some.none.none v =>
      rw [scalar_init, if_neg (by simp [numSupplied])]
      dsimp only
      rcases scalar_format_set_err (scalar_values_set ⟨none, none, none, none, 0⟩ (some v)) format
        with he | he <;> rw [he] <;> simp [numSupplied]
    all_goals simp [scalar_init, numSupplied]

/-- Every angle unit converts to a positive number of degrees. -/
theorem AngleUnit.inDeg_pos (u : AngleUnit) : 0 < u.inDeg := by
  cases u <;> norm_num [AngleUnit.inDeg]

/-- The base spacing of any state is a positive angle. -/
theorem angle_base_spacing_pos (st : AngleState) : 0 < (angle_base_spacing st).toDeg := by
  unfold angle_base_spacing AngleQ.toDeg
  repeat' split
  all_goals dsimp only
  all_goals exact mul_pos (by positivity) (AngleUnit.inDeg_pos _)

/-- Any quantity is congruent to zero modulo itself. -/
theorem qmod_self (a : ℚ) (h : a ≠ 0) : qmod a a = 0 := by
  unfold qmod
  rw [div_self h]
  norm_num

/-- Round half to even fixes one. -/
theorem roundHalfEven_one : roundHalfEven 1 = 1 := by
  norm_num [roundHalfEven]

/-- The spacing setter does not touch the descriptor fields, so the base
spacing is unchanged by it. -/
theorem angle_base_spacing_spacing_set (st : AngleState) (s : Option AngleQ) :
    angle_base_spacing (angle_spacing_set st s) = angle_base_spacing st := rfl

/-- After the second re-validation step, the stored spacing (when there
is one) is congruent to zero modulo the base spacing within the fixed
tolerance: either the guard already bounded the remainder, or the spacing
was replaced by base times round of spacing over spacing, which is the
base itself (or zero when the spacing was zero), an exact multiple. -/
theorem angle_check_mult_invariant (st1 : AngleState) (sp : AngleQ)
    (h : (angle_check_mult st1).1._spacing = some sp) :
    qmod sp.toDeg (angle_base_spacing (angle_check_mult st1).1).toDeg ≤ tol10 := by
  have hbpos := angle_base_spacing_pos st1
  have hbne : (angle_base_spacing st1).toDeg ≠ 0 := ne_of_gt hbpos
  have htol : (0 : ℚ) ≤ tol10 := by norm_num [tol10]
  unfold angle_check_mult at h ⊢
  cases hsp : st1._spacing with
  | none => simp only [hsp] at h; exact Option.noConfusion h
  | some sp0 =>
    simp only [hsp] at h ⊢
    by_cases hq : tol10 < qmod sp0.toDeg (angle_base_spacing st1).toDeg
    · rw [if_pos hq] at h ⊢
      simp only [angle_spacing_set, Option.some.injEq] at h
      subst h
      rw [angle_base_spacing_spacing_set]
      by_cases h0 : sp0.toDeg = 0
      · have hq0 : (⟨(angle_base_spacing st1).val * (roundHalfEven (sp0.toDeg / sp0.toDeg) : ℤ),
            (angle_base_spacing st1).unit⟩ : AngleQ).toDeg = 0 := by
          rw [h0]
          norm_num [AngleQ.toDeg, roundHalfEven]
        rw [hq0]
        unfold qmod
        norm_num
        exact htol
      · have hq1 : (⟨(angle_base_spacing st1).val * (roundHalfEven (sp0.toDeg / sp0.toDeg) : ℤ),
            (angle_base_spacing st1).unit⟩ : AngleQ).toDeg = (angle_base_spacing st1).toDeg := by
          rw [div_self h0, roundHalfEven_one]
          norm_num [AngleQ.toDeg]
        rw [hq1, qmod_self _ hbne]
        exact htol
    · rw [if_neg hq] at h ⊢
      rw [hsp] at h
      simp only [Option.some.injEq] at h
      subst h
      exact not_lt.1 hq

/-- After the full spacing re-validation, the stored spacing (when there
is one) is congruent to zero modulo the base spacing within tolerance. -/
theorem angle_check_spacing_invariant (st : AngleState) (sp : AngleQ)
    (h : (angle_check_spacing st).1._spacing = some sp) :
    qmod sp.toDeg (angle_base_spacing (angle_check_spacing st).1).toDeg ≤ tol10 := by
  have hcomp : (angle_check_spacing st).1 = (angle_check_mult (angle_check_low st).1).1 := rfl
  rw [hcomp] at h ⊢
  exact angle_check_mult_invariant _ _ h

/-- C3 counterexample: with format dd parsed (base spacing one degree), a
later assignment of spacing 2.5 degrees through the spacing setter is
stored as is; the remainder of the stored spacing modulo the base spacing
is one half degree, far above the tolerance, so no re-validation happened
on the spacing assignment. -/
theorem claim_C3_counterexample :
    (angle_spacing_set (angle_format_set ⟨none, some 5, none, none, false, .degree, 1, 0⟩
        (some "dd")).state (some ⟨5/2, .degree⟩))._format = some "dd"
    ∧ (angle_spacing_set (angle_format_set ⟨none, some 5, none, none, false, .degree, 1, 0⟩
        (some "dd")).state (some ⟨5/2, .degree⟩))._spacing = some ⟨5/2, .degree⟩
    ∧ tol10 < qmod (AngleQ.mk (5/2) .degree).toDeg
        (angle_base_spacing (angle_spacing_set (angle_format_set
          ⟨none, some 5, none, none, false, .degree, 1, 0⟩ (some "dd")).state
          (some ⟨5/2, .degree⟩))).toDeg := by
  refine ⟨rfl, rfl, ?_⟩
  have hb : angle_base_spacing (angle_spacing_set (angle_format_set
      ⟨none, some 5, none, none, false, .degree, 1, 0⟩ (some "dd")).state
      (some ⟨5/2, .degree⟩)) = ⟨1, AngleUnit.degree⟩ := rfl
  rw [hb]
  norm_num [qmod, tol10, AngleQ.toDeg, AngleUnit.inDeg]

/-- C3 amended: the invariant spacing mod base spacing at most 1e-10
degrees is established by every successful format assignment (for any
prior state), not by spacing assignment: the spacing setter stores its
argument without re-validation, as the counterexample shows. -/
theorem claim_C3_amended_format_assignment_validates :
    ∀ (st : AngleState) (v : String) (st2 : AngleState) (ws : List Warn),
      angle_format_set st (some v) = ⟨st2, ws, none⟩ →
      ∀ sp, st2._spacing = some sp →
      qmod sp.toDeg (angle_base_spacing st2).toDeg ≤ tol10 := by
  intro st v st2 ws h sp hsp
  simp only [angle_format_set] at h
  repeat' split at h
  all_goals simp only [SetResult.mk.injEq] at h
  all_goals obtain ⟨h1, h2, h3⟩ := h
  all_goals first
    | exact Option.noConfusion h3
    | (subst h1; exact angle_check_spacing_invariant _ _ hsp)

/-- Witness for the amended C3: assigning format dd over an explicit
spacing of three degrees succeeds without correction and the invariant
holds at the resulting state. -/
theorem claim_C3_amended_format_assignment_validates_witness :
    qmod (AngleQ.mk 3 AngleUnit.degree).toDeg
      (angle_base_spacing ⟨none, none, some ⟨3, .degree⟩, some "dd", false, .degree, 1, 0⟩).toDeg
      ≤ tol10 := by
  have step1 : angle_format_set ⟨none, none, some ⟨3, .degree⟩, none, false, .degree, 1, 0⟩ (some "dd")
      = ⟨(angle_check_spacing ⟨none, none, some ⟨3, .degree⟩, some "dd", false, .degree, 1, 0⟩).1,
         (angle_check_spacing ⟨none, none, some ⟨3, .degree⟩, some "dd", false, .degree, 1, 0⟩).2, none⟩ := rfl
  have hb : angle_base_spacing ⟨none, none, some ⟨3, .degree⟩, some "dd", false, .degree, 1, 0⟩
      = ⟨1, AngleUnit.degree⟩ := rfl
  have hE : angle_format_set ⟨none, none, some ⟨3, .degree⟩, none, false, .degree, 1, 0⟩ (some "dd")
      = ⟨⟨none, none, some ⟨3, .degree⟩, some "dd", false, .degree, 1, 0⟩, [], none⟩ := by
    rw [step1]
    norm_num [angle_check_spacing, angle_check_low, angle_check_mult, hb, AngleQ.toDeg,
      AngleUnit.inDeg, qmod, tol10, roundHalfEven]
  exact claim_C3_amended_format_assignment_validates _ "dd" _ [] hE ⟨3, .degree⟩ rfl

/-- Membership in the generated tick list is exactly being an integer
multiple of the spacing whose index lies between the ceiling of the lower
bound and the floor of the upper bound. -/
theorem tickValues_mem (vmin vmax s x : ℚ) :
    x ∈ tickValues vmin vmax s ↔
      ∃ i : ℤ, ⌈vmin / s⌉ ≤ i ∧ i ≤ ⌊vmax / s⌋ ∧ x = (i : ℚ) * s := by
  unfold tickValues
  simp only [List.mem_map, List.mem_range]
  constructor
  · rintro ⟨k, hk, rfl⟩
    exact ⟨⌈vmin / s⌉ + k, by omega, by omega, rfl⟩
  · rintro ⟨i, h1, h2, rfl⟩
    refine ⟨(i - ⌈vmin / s⌉).toNat, by omega, ?_⟩
    have hi : ⌈vmin / s⌉ + (((i - ⌈vmin / s⌉).toNat : ℤ)) = i := by omega
    rw [hi]

/-- When the floor index is below the ceiling index the tick list is
empty. -/
theorem tickValues_empty (vmin vmax s : ℚ) (h : ⌊vmax / s⌋ < ⌈vmin / s⌉) :
    tickValues vmin vmax s = [] := by
  have hz : (⌊vmax / s⌋ + 1 - ⌈vmin / s⌉).toNat = 0 := by omega
  simp only [tickValues, hz]
  rfl

/-- For a positive spacing the tick list is strictly ascending. -/
theorem tickValues_sorted (vmin vmax s : ℚ) (hs : 0 < s) :
    List.Sorted (· < ·) (tickValues vmin vmax s) := by
  simp only [tickValues]
  refine List.pairwise_map.mpr ?_
  refine List.Pairwise.imp ?_ (List.pairwise_lt_range _)
  intro a b hab
  have : ((⌈vmin / s⌉ + (a : ℤ) : ℤ) : ℚ) < ((⌈vmin / s⌉ + (b : ℤ) : ℤ) : ℚ) := by
    exact_mod_cast by omega
  exact mul_lt_mul_of_pos_right this hs

/-- C2: outside explicit-values mode both locators return, for the
resolved spacing s, exactly the multiples i times s for i between the
ceiling of value_min over s and the floor of value_max over s, built by
multiplying the integer index, in strictly ascending order, and the empty
list, not an error, when the index range is empty.  The angle variant
reports the spacing in degrees. -/
theorem claim_C2_locator_multiples :
    (∀ (degSel hourSel : ℚ → ℚ) (st : AngleState) (vmin vmax : ℚ) (vals : List ℚ) (sq : AngleQ),
      st._values = none →
      angle_locator degSel hourSel st vmin vmax = some (vals, sq) →
      0 < sq.val →
      sq.unit = AngleUnit.degree
      ∧ (⌊vmax / sq.val⌋ < ⌈vmin / sq.val⌉ → vals = [])
      ∧ (∀ x : ℚ, x ∈ vals ↔ ∃ i : ℤ, ⌈vmin / sq.val⌉ ≤ i ∧ i ≤ ⌊vmax / sq.val⌋ ∧ x = (i : ℚ) * sq.val)
      ∧ List.Sorted (· < ·) vals)
    ∧ (∀ (scalSel : ℚ → ℚ) (st : ScalarState) (vmin vmax : ℚ) (vals : List ℚ) (s : ℚ),
      st._values = none →
      scalar_locator scalSel st vmin vmax = some (vals, s) →
      0 < s →
      (⌊vmax / s⌋ < ⌈vmin / s⌉ → vals = [])
      ∧ (∀ x : ℚ, x ∈ vals ↔ ∃ i : ℤ, ⌈vmin / s⌉ ≤ i ∧ i ≤ ⌊vmax / s⌋ ∧ x = (i : ℚ) * s)
      ∧ List.Sorted (· < ·) vals) := by
  constructor
  · intro degSel hourSel st vmin vmax vals sq hv hloc hpos
    unfold angle_locator at hloc
    rw [hv] at hloc
    cases hE : angle_resolved_spacing degSel hourSel st vmin vmax with
    | none => rw [hE] at hloc; exact Option.noConfusion hloc
    | some s =>
      rw [hE] at hloc
      simp only [Option.some.injEq, Prod.mk.injEq] at hloc
      obtain ⟨hvals, hsq⟩ := hloc
      subst hvals
      subst hsq
      exact ⟨rfl, tickValues_empty vmin vmax s, tickValues_mem vmin vmax s,
        tickValues_sorted vmin vmax s hpos⟩
  · intro scalSel st vmin vmax vals s hv hloc hpos
    unfold scalar_locator at hloc
    rw [hv] at hloc
    cases hE : scalar_resolved_spacing scalSel st vmin vmax with
    | none => rw [hE] at hloc; exact Option.noConfusion hloc
    | some s0 =>
      rw [hE] at hloc
      simp only [Option.some.injEq, Prod.mk.injEq] at hloc
      obtain ⟨hvals, hs⟩ := hloc
      subst hvals
      subst hs
      exact ⟨tickValues_empty vmin vmax s0, tickValues_mem vmin vmax s0,
        tickValues_sorted vmin vmax s0 hpos⟩

/-- Witness for C2: explicit spacing two degrees on the range zero to
five yields the multiples zero, two, four; explicit scalar spacing one
half on the range zero to one yields zero, one half, one; both lists are
ascending, contain the sample multiple, and were derived through the
locator theorem at these concrete inputs. -/
theorem claim_C2_locator_multiples_witness :
    ((2 : ℚ) ∈ ([0, 2, 4] : List ℚ) ∧ List.Sorted (· < ·) ([0, 2, 4] : List ℚ))
    ∧ ((1/2 : ℚ) ∈ ([0, 1/2, 1] : List ℚ) ∧ List.Sorted (· < ·) ([0, 1/2, 1] : List ℚ)) := by
  have hlocA : angle_locator (fun q => q) (fun q => q)
      ⟨none, none, some ⟨2, .degree⟩, none, false, .degree, 1, 0⟩ 0 5
      = some ([0, 2, 4], ⟨2, .degree⟩) := by
    have h3 : Int.toNat 3 = 3 := rfl
    norm_num [angle_locator, angle_resolved_spacing, AngleQ.toDeg, AngleUnit.inDeg, tickValues,
      List.range_succ, h3]
  have hA := claim_C2_locator_multiples.1 (fun q => q) (fun q => q)
      ⟨none, none, some ⟨2, .degree⟩, none, false, .degree, 1, 0⟩ 0 5 [0, 2, 4] ⟨2, .degree⟩
      rfl hlocA (by norm_num)
  have hlocS : scalar_locator (fun q => q) ⟨none, none, some (1/2), none, 0⟩ 0 1
      = some ([0, 1/2, 1], 1/2) := by
    have h3 : Int.toNat 3 = 3 := rfl
    norm_num [scalar_locator, scalar_resolved_spacing, tickValues, List.range_succ, h3]
  have hS := claim_C2_locator_multiples.2 (fun q => q) ⟨none, none, some (1/2), none, 0⟩ 0 1
      [0, 1/2, 1] (1/2) rfl hlocS (by norm_num)
  refine ⟨⟨?_, hA.2.2.2⟩, ⟨?_, hS.2.2⟩⟩
  · exact (hA.2.2.1 2).mpr ⟨1, by norm_num⟩
  · exact (hS.2.1 (1/2)).mpr ⟨1, by norm_num⟩

/-- C8 counterexample: the claim says degree-like units (degree,
arcminute, arcsecond) use the degree selector.  With format m the active
unit is arcminute, the ideal spacing over the range zero to ten with five
desired ticks is two degrees, well above the base spacing of one
arcminute, and the code hands it to the hour selector: with a degree
selector returning 2 and an hour selector returning 7 the resolved
spacing is 7, not 2. -/
theorem claim_C8_counterexample :
    (angle_format_set ⟨none, some 5, none, none, false, .degree, 1, 0⟩ (some "m")).state._unit
      = AngleUnit.arcmin
    ∧ angle_resolved_spacing (fun _ => 2) (fun _ => 7)
        (angle_format_set ⟨none, some 5, none, none, false, .degree, 1, 0⟩ (some "m")).state 0 10
      = some 7
    ∧ (7 : ℚ) ≠ 2
    ∧ angle_locator (fun _ => 2) (fun _ => 7)
        (angle_format_set ⟨none, some 5, none, none, false, .degree, 1, 0⟩ (some "m")).state 0 10
      = some ([0, 7], ⟨7, .degree⟩) := by
  have hst : (angle_format_set ⟨none, some 5, none, none, false, .degree, 1, 0⟩ (some "m")).state
      = ⟨none, some 5, none, some "m", true, .arcmin, 1, 0⟩ := rfl
  have hres : angle_resolved_spacing (fun _ => 2) (fun _ => 7)
      (⟨none, some 5, none, some "m", true, .arcmin, 1, 0⟩ : AngleState) 0 10 = some 7 := by
    simp only [angle_resolved_spacing, angle_base_spacing]
    simp
    norm_num [AngleQ.toDeg, AngleUnit.inDeg]
  refine ⟨rfl, by rw [hst]; exact hres, by norm_num, ?_⟩
  rw [hst]
  unfold angle_locator
  rw [hres]
  have h2 : Int.toNat 2 = 2 := rfl
  norm_num [tickValues, List.range_succ, h2]

/-- C8 amended: in desired-count mode with a positive count, the resolved
spacing is the base spacing when a format is set and the ideal spacing is
finer than it; otherwise the angle variant hands the ideal spacing to the
degree selector exactly when the active unit is degree, and to the hour
selector for every other unit (hour-angle, and also arcminute and
arcsecond); the scalar variant always uses the scalar selector.  The
locator then produces the multiples of whatever spacing was resolved. -/
theorem claim_C8_amended_selector_dispatch :
    (∀ (degSel hourSel : ℚ → ℚ) (st : AngleState) (n : ℕ) (vmin vmax : ℚ),
      st._values = none → st._spacing = none → st._number = some n → 0 < n →
      (st._format.isSome → |vmax - vmin| / (n : ℚ) < (angle_base_spacing st).toDeg →
        angle_resolved_spacing degSel hourSel st vmin vmax = some (angle_base_spacing st).toDeg)
      ∧ (¬(st._format.isSome ∧ |vmax - vmin| / (n : ℚ) < (angle_base_spacing st).toDeg) →
          st._unit = AngleUnit.degree →
          angle_resolved_spacing degSel hourSel st vmin vmax
            = some (degSel (|vmax - vmin| / (n : ℚ))))
      ∧ (¬(st._format.isSome ∧ |vmax - vmin| / (n : ℚ) < (angle_base_spacing st).toDeg) →
          st._unit ≠ AngleUnit.degree →
          angle_resolved_spacing degSel hourSel st vmin vmax
            = some (hourSel (|vmax - vmin| / (n : ℚ))))
      ∧ (∀ s, angle_resolved_spacing degSel hourSel st vmin vmax = some s →
          angle_locator degSel hourSel st vmin vmax
            = some (tickValues vmin vmax s, ⟨s, .degree⟩)))
    ∧ (∀ (scalSel : ℚ → ℚ) (st : ScalarState) (n : ℕ) (vmin vmax : ℚ),
      st._values = none → st._spacing = none → st._number = some n → 0 < n →
      (st._format.isSome → |vmax - vmin| / (n : ℚ) < scalar_base_spacing st →
        scalar_resolved_spacing scalSel st vmin vmax = some (scalar_base_spacing st))
      ∧ (¬(st._format.isSome ∧ |vmax - vmin| / (n : ℚ) < scalar_base_spacing st) →
          scalar_resolved_spacing scalSel st vmin vmax
            = some (scalSel (|vmax - vmin| / (n : ℚ))))
      ∧ (∀ s, scalar_resolved_spacing scalSel st vmin vmax = some s →
          scalar_locator scalSel st vmin vmax = some (tickValues vmin vmax s, s))) := by
  constructor
  · intro degSel hourSel st n vmin vmax hv hsp hn hnpos
    have hn0 : ¬(n = 0) := by omega
    refine ⟨?_, ?_, ?_, ?_⟩
    · intro hf hfine
      unfold angle_resolved_spacing
      simp only [hsp, hn]
      rw [if_neg hn0, if_pos ⟨hf, hfine⟩]
    · intro hnc hdeg
      unfold angle_resolved_spacing
      simp only [hsp, hn]
      rw [if_neg hn0, if_neg hnc, if_pos hdeg]
    · intro hnc hdeg
      unfold angle_resolved_spacing
      simp only [hsp, hn]
      rw [if_neg hn0, if_neg hnc, if_neg hdeg]
    · intro s hres
      unfold angle_locator
      rw [hv, hres]
  · intro scalSel st n vmin vmax hv hsp hn hnpos
    have hn0 : ¬(n = 0) := by omega
    refine ⟨?_, ?_, ?_⟩
    · intro hf hfine
      unfold scalar_resolved_spacing
      simp only [hsp, hn]
      rw [if_neg hn0, if_pos ⟨hf, hfine⟩]
    · intro hnc
      unfold scalar_resolved_spacing
      simp only [hsp, hn]
      rw [if_neg hn0, if_neg hnc]
    · intro s hres
      unfold scalar_locator
      rw [hv, hres]

/-- Witness for the amended C8: the arcminute-format state with five
desired ticks on the range zero to ten resolves through the hour
selector, and a formatless scalar state with four desired ticks on the
range zero to eight resolves through the scalar selector on the ideal
spacing two. -/
theorem claim_C8_amended_selector_dispatch_witness :
    angle_resolved_spacing (fun _ => 2) (fun _ => 7)
      (⟨none, some 5, none, some "m", true, .arcmin, 1, 0⟩ : AngleState) 0 10 = some 7
    ∧ scalar_resolved_spacing (fun _ => 9) (⟨none, some 4, none, none, 0⟩ : ScalarState) 0 8
      = some 9 := by
  constructor
  · have h := (claim_C8_amended_selector_dispatch.1 (fun _ => 2) (fun _ => 7)
      ⟨none, some 5, none, some "m", true, .arcmin, 1, 0⟩ 5 0 10 rfl rfl rfl (by norm_num)).2.2.1
    have hc : ¬((Option.some "m").isSome
        ∧ |(10 : ℚ) - 0| / ((5 : ℕ) : ℚ)
          < (angle_base_spacing ⟨none, some 5, none, some "m", true, .arcmin, 1, 0⟩).toDeg) := by
      simp only [angle_base_spacing]
      simp
      norm_num [AngleQ.toDeg, AngleUnit.inDeg]
    exact h hc (by decide)
  · have h := (claim_C8_amended_selector_dispatch.2 (fun _ => 9)
      ⟨none, some 4, none, none, 0⟩ 4 0 8 rfl rfl rfl (by norm_num)).2.1
    have hc : ¬((Option.none : Option String).isSome
        ∧ |(8 : ℚ) - 0| / ((4 : ℕ) : ℚ) < scalar_base_spacing ⟨none, some 4, none, none, 0⟩) := by
      norm_num
    exact h hc

/-- No degree-sexagesimal regex form matches a string starting with h. -/
theorem reMatch_dmsCore_h (l : List Char) : reMatch dmsCore ('h' :: l) = false := by
  unfold reMatch
  have h1 : dmsCore ('h' :: l) = false := rfl
  have h2 : dmsCore (('h' :: l).dropLast) = false := by
    cases l with
    | nil => rfl
    | cons a t =>
        have hd : ('h' :: a :: t).dropLast = 'h' :: (a :: t).dropLast := rfl
        rw [hd]
        rfl
  rw [h1, h2]
  simp

/-- The hour-sexagesimal regex accepts hh:mm:ss followed by a dot and a
nonempty run of s placeholders. -/
theorem reMatch_hmsCore_dot (n : ℕ) (hn : 1 ≤ n) :
    reMatch hmsCore ('h' :: 'h' :: ':' :: 'm' :: 'm' :: ':' :: 's' :: 's' :: '.' :: List.replicate n 's') = true := by
  obtain ⟨m, rfl⟩ : ∃ m, n = m + 1 := ⟨n - 1, by omega⟩
  have hc : hmsCore ('h' :: 'h' :: ':' :: 'm' :: 'm' :: ':' :: 's' :: 's' :: '.' :: List.replicate (m + 1) 's') = true := by
    simp [hmsCore, anyChar, repPlus, List.replicate_succ, List.all_eq_true, List.mem_replicate]
  unfold reMatch
  rw [hc]
  simp

/-- The degree-sexagesimal regex accepts dd:mm:ss followed by a dot and a
nonempty run of s placeholders. -/
theorem reMatch_dmsCore_dot (n : ℕ) (hn : 1 ≤ n) :
    reMatch dmsCore ('d' :: 'd' :: ':' :: 'm' :: 'm' :: ':' :: 's' :: 's' :: '.' :: List.replicate n 's') = true := by
  obtain ⟨m, rfl⟩ : ∃ m, n = m + 1 := ⟨n - 1, by omega⟩
  have hc : dmsCore ('d' :: 'd' :: ':' :: 'm' :: 'm' :: ':' :: 's' :: 's' :: '.' :: List.replicate (m + 1) 's') = true := by
    simp [dmsCore, anyChar, repPlus, List.replicate_succ, List.all_eq_true, List.mem_replicate]
  unfold reMatch
  rw [hc]
  simp

/-- The first dot of the dotted sexagesimal strings sits at index 8. -/
theorem strIndex_dot_sexa (a b : Char) (n : ℕ) (ha : a ≠ '.') (hb : b ≠ '.') :
    strIndex '.' (a :: a :: ':' :: 'm' :: 'm' :: ':' :: b :: b :: '.' :: List.replicate n 's') = some 8 := by
  simp [strIndex, ha, hb]

/-- Precision of the dotted sexagesimal strings is the number of trailing
placeholders. -/
theorem precisionOf_dot_sexa (a b : Char) (n : ℕ) (ha : a ≠ '.') (hb : b ≠ '.') :
    precisionOf (a :: a :: ':' :: 'm' :: 'm' :: ':' :: b :: b :: '.' :: List.replicate n 's') = n := by
  unfold precisionOf
  rw [strIndex_dot_sexa a b n ha hb]
  simp

/-- Field count of the dotted sexagesimal strings is three. -/
theorem sexaFields_dot_sexa (a b : Char) (n : ℕ) (ha : a ≠ '.') (hb : b ≠ '.') :
    sexaFields (a :: a :: ':' :: 'm' :: 'm' :: ':' :: b :: b :: '.' :: List.replicate n 's') = 3 := by
  unfold sexaFields
  rw [strIndex_dot_sexa a b n ha hb]

/-- Parsing hh:mm:ss dot s-run yields the hour-angle descriptor with
three fields and precision equal to the run length. -/
theorem angle_parse_hms_dot (n : ℕ) (hn : 1 ≤ n) :
    (angle_format_set ⟨none, some 5, none, none, false, .degree, 1, 0⟩
        (some (String.mk ('h' :: 'h' :: ':' :: 'm' :: 'm' :: ':' :: 's' :: 's' :: '.' :: List.replicate n 's')))).state
      = ⟨none, some 5, none,
          some (String.mk ('h' :: 'h' :: ':' :: 'm' :: 'm' :: ':' :: 's' :: 's' :: '.' :: List.replicate n 's')),
          false, .hourangle, 3, n⟩ := by
  have hdata : (String.mk ('h' :: 'h' :: ':' :: 'm' :: 'm' :: ':' :: 's' :: 's' :: '.' :: List.replicate n 's')).data
      = 'h' :: 'h' :: ':' :: 'm' :: 'm' :: ':' :: 's' :: 's' :: '.' :: List.replicate n 's' := rfl
  simp only [angle_format_set, hdata, reMatch_dmsCore_h, reMatch_hmsCore_dot n hn,
    Bool.false_eq_true, if_false, if_true,
    sexaFields_dot_sexa 'h' 's' n (by decide) (by decide),
    precisionOf_dot_sexa 'h' 's' n (by decide) (by decide)]
  rfl

/-- Parsing dd:mm:ss dot s-run yields the degree descriptor with three
fields and precision equal to the run length. -/
theorem angle_parse_dms_dot (n : ℕ) (hn : 1 ≤ n) :
    (angle_format_set ⟨none, some 5, none, none, false, .degree, 1, 0⟩
        (some (String.mk ('d' :: 'd' :: ':' :: 'm' :: 'm' :: ':' :: 's' :: 's' :: '.' :: List.replicate n 's')))).state
      = ⟨none, some 5, none,
          some (String.mk ('d' :: 'd' :: ':' :: 'm' :: 'm' :: ':' :: 's' :: 's' :: '.' :: List.replicate n 's')),
          false, .degree, 3, n⟩ := by
  have hdata : (String.mk ('d' :: 'd' :: ':' :: 'm' :: 'm' :: ':' :: 's' :: 's' :: '.' :: List.replicate n 's')).data
      = 'd' :: 'd' :: ':' :: 'm' :: 'm' :: ':' :: 's' :: 's' :: '.' :: List.replicate n 's' := rfl
  simp only [angle_format_set, hdata, reMatch_dmsCore_dot n hn,
    if_true, sexaFields_dot_sexa 'd' 's' n (by decide) (by decide),
    precisionOf_dot_sexa 'd' 's' n (by decide) (by decide)]
  rfl

/-- C9: each hour-angle format reports a base spacing fifteen times the
one of the corresponding degree format: hh gives fifteen degrees against
one degree for dd, hh:mm fifteen arcminutes against one, hh:mm:ss fifteen
arcseconds against one, and the dotted forms scale the fifteenfold
arcsecond fraction alike. -/
theorem claim_C9_hour_base_spacing_fifteenfold :
    (angle_base_spacing (angle_format_set ⟨none, some 5, none, none, false, .degree, 1, 0⟩
        (some "hh")).state).toDeg
      = 15 * (angle_base_spacing (angle_format_set ⟨none, some 5, none, none, false, .degree, 1, 0⟩
        (some "dd")).state).toDeg
    ∧ (angle_base_spacing (angle_format_set ⟨none, some 5, none, none, false, .degree, 1, 0⟩
        (some "hh:mm")).state).toDeg
      = 15 * (angle_base_spacing (angle_format_set ⟨none, some 5, none, none, false, .degree, 1, 0⟩
        (some "dd:mm")).state).toDeg
    ∧ (angle_base_spacing (angle_format_set ⟨none, some 5, none, none, false, .degree, 1, 0⟩
        (some "hh:mm:ss")).state).toDeg
      = 15 * (angle_base_spacing (angle_format_set ⟨none, some 5, none, none, false, .degree, 1, 0⟩
        (some "dd:mm:ss")).state).toDeg
    ∧ (∀ n : ℕ, 1 ≤ n →
      (angle_base_spacing (angle_format_set ⟨none, some 5, none, none, false, .degree, 1, 0⟩
          (some (String.mk ('h' :: 'h' :: ':' :: 'm' :: 'm' :: ':' :: 's' :: 's' :: '.' :: List.replicate n 's')))).state).toDeg
        = 15 * (angle_base_spacing (angle_format_set ⟨none, some 5, none, none, false, .degree, 1, 0⟩
          (some (String.mk ('d' :: 'd' :: ':' :: 'm' :: 'm' :: ':' :: 's' :: 's' :: '.' :: List.replicate n 's')))).state).toDeg) := by
  refine ⟨?_, ?_, ?_, ?_⟩
  · have hH : angle_base_spacing (angle_format_set ⟨none, some 5, none, none, false, .degree, 1, 0⟩
        (some "hh")).state = ⟨1 * 15, .degree⟩ := rfl
    have hD : angle_base_spacing (angle_format_set ⟨none, some 5, none, none, false, .degree, 1, 0⟩
        (some "dd")).state = ⟨1, .degree⟩ := rfl
    rw [hH, hD]
    norm_num [AngleQ.toDeg, AngleUnit.inDeg]
  · have hH : angle_base_spacing (angle_format_set ⟨none, some 5, none, none, false, .degree, 1, 0⟩
        (some "hh:mm")).state = ⟨1 * 15, .arcmin⟩ := rfl
    have hD : angle_base_spacing (angle_format_set ⟨none, some 5, none, none, false, .degree, 1, 0⟩
        (some "dd:mm")).state = ⟨1, .arcmin⟩ := rfl
    rw [hH, hD]
    norm_num [AngleQ.toDeg, AngleUnit.inDeg]
  · have hH : angle_base_spacing (angle_format_set ⟨none, some 5, none, none, false, .degree, 1, 0⟩
        (some "hh:mm:ss")).state = ⟨1 * 15, .arcsec⟩ := rfl
    have hD : angle_base_spacing (angle_format_set ⟨none, some 5, none, none, false, .degree, 1, 0⟩
        (some "dd:mm:ss")).state = ⟨1, .arcsec⟩ := rfl
    rw [hH, hD]
    norm_num [AngleQ.toDeg, AngleUnit.inDeg]
  · intro n hn
    rw [angle_parse_hms_dot n hn, angle_parse_dms_dot n hn]
    have hbH : angle_base_spacing ⟨none, some 5, none,
        some (String.mk ('h' :: 'h' :: ':' :: 'm' :: 'm' :: ':' :: 's' :: 's' :: '.' :: List.replicate n 's')),
        false, .hourangle, 3, n⟩ = ⟨1 / 10 ^ n * 15, .arcsec⟩ := by
      simp [angle_base_spacing, show n ≠ 0 by omega]
    have hbD : angle_base_spacing ⟨none, some 5, none,
        some (String.mk ('d' :: 'd' :: ':' :: 'm' :: 'm' :: ':' :: 's' :: 's' :: '.' :: List.replicate n 's')),
        false, .degree, 3, n⟩ = ⟨1 / 10 ^ n, .arcsec⟩ := by
      simp [angle_base_spacing, show n ≠ 0 by omega]
    rw [hbH, hbD]
    simp only [AngleQ.toDeg, AngleUnit.inDeg]
    ring

/-- Witness for C9: at two fractional digits, hh:mm:ss.ss gives base
spacing fifteen hundredths of an arcsecond, fifteen times the one of
dd:mm:ss.ss. -/
theorem claim_C9_hour_base_spacing_fifteenfold_witness :
    (angle_base_spacing (angle_format_set ⟨none, some 5, none, none, false, .degree, 1, 0⟩
        (some (String.mk ('h' :: 'h' :: ':' :: 'm' :: 'm' :: ':' :: 's' :: 's' :: '.' :: List.replicate 2 's')))).state).toDeg
      = 15 * (angle_base_spacing (angle_format_set ⟨none, some 5, none, none, false, .degree, 1, 0⟩
        (some (String.mk ('d' :: 'd' :: ':' :: 'm' :: 'm' :: ':' :: 's' :: 's' :: '.' :: List.replicate 2 's')))).state).toDeg :=
  claim_C9_hour_base_spacing_fifteenfold.2.2.2 2 (by norm_num)
